import Mathlib

set_option linter.unusedVariables false

/-!
Verification development for report-exporter.py (Power BI report exporter).

The script is shallowly embedded: HTTP responses become explicit input values,
the mutable fields of a ReportExporter instance become an explicit state
record, exceptions become an explicit result type, and the credential store
file becomes a list of comma-split lines.  PDF byte buffers are modelled as
lists of bytes, and PyPDF2 page merging as list concatenation.
-/

/-- Models requests.Response.raise_for_status, which raises an HTTPError
exactly for status codes 400..599 and returns None otherwise. -/
def isHttpError (code : Nat) : Bool :=
  decide (400 ≤ code) && decide (code < 600)

/-- Models the outcome of a Python call: a returned value, or a raised
exception carrying the exception kind. -/
inductive PyResult (α : Type) where
  | ok (val : α)
  | exn (msg : String)
deriving DecidableEq

/-- Mutable state of one ReportExporter instance as set up by __init__
(num_of_export_jobs_done = 0 and the three buffers None), together with the
process working directory (a list of path components), which the merge step
of download_report mutates via os.chdir. -/
structure ExporterState where
  num_of_export_jobs_done : Nat
  file1 : Option (List Nat)
  file2 : Option (List Nat)
  file3 : Option (List Nat)
  cwd : List String
deriving DecidableEq

/-- Observable outcome of the merge branch of download_report: either the
merged PDF was written (in directory `dir`, under `filename`, with the pages
of `content`), or the branch ran with a still-missing buffer, in which case
io.BytesIO(None) raises a TypeError. -/
inductive MergeEvent where
  | merged (dir : List String) (filename : String) (content : List Nat)
  | crashed
deriving DecidableEq

/-- Models ReportExporter.download_report: increments the completion counter,
stores the downloaded bytes into file1/file2/file3 according to batch_num,
and, when the counter has reached 3, merges the three buffers in fixed order
file1, file2, file3 and writes the result as
`{business_id}_{language}_pagetestts.pdf` inside a `downloaded_reports`
directory (os.chdir into it unless the basename of the cwd already is it). -/
def download_report (s : ExporterState) (export_id business_id language : String)
    (batch_num : Int) (content : List Nat) : ExporterState × Option MergeEvent :=
  let n := s.num_of_export_jobs_done + 1
  let s1 : ExporterState := { s with num_of_export_jobs_done := n }
  let s2 : ExporterState :=
    if batch_num = 0 then { s1 with file1 := some content }
    else if batch_num = 1 then { s1 with file2 := some content }
    else if batch_num = 2 then { s1 with file3 := some content }
    else s1
  if n = 3 then
    match s2.file1, s2.file2, s2.file3 with
    | some f1, some f2, some f3 =>
      let dir :=
        if s2.cwd.getLast? = some ("downloaded_reports") then s2.cwd
        else s2.cwd ++ [("downloaded_reports" : String)]
      ({ s2 with cwd := dir },
        some (MergeEvent.merged dir (business_id ++ "_" ++ language ++ "_pagetestts.pdf")
          (f1 ++ f2 ++ f3)))
    | _, _, _ => (s2, some MergeEvent.crashed)
  else (s2, none)

/-- Initial ReportExporter state (__init__) running in working directory
`cwd`: counter zero, no buffer filled. -/
def initExporter (cwd : List String) : ExporterState :=
  { num_of_export_jobs_done := 0, file1 := none, file2 := none, file3 := none, cwd := cwd }

/-- Runs a sequence of download_report calls, each given as
(export id, batch number, downloaded bytes), threading the exporter state and
collecting the merge events in call order. -/
def runCalls (business_id language : String) :
    ExporterState → List (String × Int × List Nat) → ExporterState × List MergeEvent
  | s, [] => (s, [])
  | s, c :: rest =>
    let r := download_report s c.1 business_id language c.2.1 c.2.2
    let rr := runCalls business_id language r.1 rest
    (rr.1, r.2.toList ++ rr.2)

/-- HTTP response to the exportTo submit POST, as consumed by get_export_id:
its status code and the job id field of its JSON body. -/
structure SubmitResponse where
  status_code : Nat
  id : String
deriving DecidableEq

/-- Models ReportExporter.get_export_id: raise_for_status raises for a
4xx/5xx submit response; on status 202 with batch_num >= 0 the job id is
returned and generate_report (polling) is invoked, otherwise None is
returned.  The result pairs the returned job id with whether
generate_report was invoked. -/
def get_export_id (resp : SubmitResponse) (batch_num : Int) :
    PyResult (Option String × Bool) :=
  if isHttpError resp.status_code then PyResult.exn ("HTTPError")
  else if resp.status_code = 202 ∧ 0 ≤ batch_num then PyResult.ok (some resp.id, true)
  else PyResult.ok (none, false)

/-- HTTP response to one status poll inside generate_report: its status code
and the "status" field of its JSON body. -/
structure PollResponse where
  status_code : Nat
  status : String
deriving DecidableEq

/-- Exit mode of the generate_report polling loop run against a finite
sequence of responses, with the total seconds slept by time.sleep(5):
download_report was invoked after a "Succeeded" status, raise_for_status
raised on a 4xx/5xx poll response, or every supplied response was consumed
with the loop still pending. -/
inductive PollExit where
  | succeededDownload (sleepSeconds : Nat)
  | httpError (sleepSeconds : Nat)
  | pending (sleepSeconds : Nat)
deriving DecidableEq

/-- Models the while-loop of ReportExporter.generate_report over the
sequence of poll responses it observes: each iteration first applies
raise_for_status, then compares the body status with "Succeeded" (invoking
download_report and breaking on equality), and otherwise sleeps 5 seconds
and retries. -/
def generate_report : List PollResponse → PollExit
  | [] => PollExit.pending 0
  | r :: rest =>
    if isHttpError r.status_code then PollExit.httpError 0
    else if r.status = "Succeeded" then PollExit.succeededDownload 0
    else
      match generate_report rest with
      | PollExit.succeededDownload t => PollExit.succeededDownload (t + 5)
      | PollExit.httpError t => PollExit.httpError (t + 5)
      | PollExit.pending t => PollExit.pending (t + 5)

/-- Pythonic string: a list of characters. -/
abbrev PyStr := List Char

/-- Models str.strip() with no arguments: removes leading and trailing
whitespace from a list of characters. -/
def pyStrip (s : PyStr) : PyStr :=
  List.rdropWhile Char.isWhitespace (List.dropWhile Char.isWhitespace s)

/-- Models str.strip() on a whole String value. -/
def pyStripString (s : String) : String :=
  String.mk (pyStrip s.data)

/-- Record built by retrieve_business_ids for each csv row. -/
structure BusinessRecord where
  business_id : String
  language : String
deriving DecidableEq

/-- Models csv.reader with delimiter set to the newline character, for input
lines free of csv quote characters: every physical line is one row, an empty
line giving the empty row and any other line a single-field row. -/
def csvRows (lines : List String) : List (List String) :=
  lines.map (fun l => if l = "" then [] else [l])

/-- Models retrieve_business_ids over the lines of business_ids.csv: each
row is joined with a comma-space separator, stripped, and paired with the
fixed locale string "fi-FI". -/
def retrieve_business_ids (lines : List String) : List BusinessRecord :=
  (csvRows lines).map (fun row =>
    { business_id := pyStripString (String.intercalate (", ") row), language := "fi-FI" })

/-! ### Credential store (ids.txt)

Python strings handled by the store are modelled as lists of characters so
that str.strip can be reasoned about; a line of ids.txt is modelled as the
list of its comma-separated fields (the result of line.split on the comma),
and writing a line with given fields models the comma-joined f-string writes
of bearer_to_file.  datetime values are modelled as natural-number
timestamps; str(expiry) and datetime.strptime become the decimal printer
fmtTime and parser parseTime below, parseTime returning none on malformed
input just as strptime raises ValueError. -/

/-- Decimal digits of a positive number, least significant first; the first
argument is structural-recursion fuel (n itself suffices). -/
def natDigitsRevAux : Nat → Nat → List Nat
  | 0, _ => []
  | _ + 1, 0 => []
  | fuel + 1, n + 1 => (n + 1) % 10 :: natDigitsRevAux fuel ((n + 1) / 10)

/-- Decimal digits, least significant first (empty for zero). -/
def natDigitsRev (n : Nat) : List Nat :=
  natDigitsRevAux n n

/-- Lookup table from digit values to digit characters. -/
def digitChars : List Char :=
  ['0', '1', '2', '3', '4', '5', '6', '7', '8', '9']

/-- Character for one decimal digit. -/
def digitToChar (d : Nat) : Char :=
  digitChars.getD d '0'

/-- Numeric value of one decimal digit character. -/
def charToDigit (c : Char) : Nat :=
  c.toNat - 48

/-- Models str(expiry): the decimal rendering of the timestamp. -/
def fmtTime (t : Nat) : PyStr :=
  if t = 0 then ['0'] else ((natDigitsRev t).reverse).map digitToChar

/-- Models datetime.strptime on the expiry field: succeeds exactly on
nonempty all-digit strings, yielding the timestamp. -/
def parseTime (s : PyStr) : Option Nat :=
  if s.isEmpty then none
  else if s.all Char.isDigit then
    some (s.foldl (fun a c => a * 10 + charToDigit c) 0)
  else none

/-- Value of a little-endian digit list. -/
def valRev : List Nat → Nat
  | [] => 0
  | d :: ds => d + 10 * valRev ds

/-- The id_dict of retrieve_ids: a Python dict from keys to values in
insertion order. -/
abbrev Dict := List (PyStr × PyStr)

/-- Key membership test of the modelled Python dict. -/
def dictHasKey (d : Dict) (k : PyStr) : Bool :=
  d.any (fun kv => kv.1 == k)

/-- Models a Python dict assignment d[k] = v: updates the value in place if
the key is present, otherwise appends the pair. -/
def dictInsert (d : Dict) (k v : PyStr) : Dict :=
  if dictHasKey d k then
    d.map (fun kv => if kv.1 = k then (k, v) else kv)
  else d ++ [(k, v)]

/-- Models a Python dict lookup d.get(k). -/
def dictGet (d : Dict) (k : PyStr) : Option PyStr :=
  (d.find? (fun kv => kv.1 == k)).map (fun kv => kv.2)

/-- The characters of the key "bearer". -/
def bearerKey : PyStr :=
  "bearer".toList

/-- Well-formedness of a dict produced by the read loop: keys are pairwise
distinct, and every key and value is fixed by str.strip (they were produced
by stripping). -/
def storeDictOK (d : Dict) : Prop :=
  d.Pairwise (fun a b => a.1 ≠ b.1) ∧
    ∀ kv ∈ d, pyStrip kv.1 = kv.1 ∧ pyStrip kv.2 = kv.2

/-- Models one iteration of the read loop of retrieve_ids on the fields of
one line: line[0] and line[1] are stripped and assigned into the dict
(IndexError when the line has fewer than two fields), and on the bearer key
the third field is parsed as the expiry (IndexError when missing, ValueError
when malformed).  The accumulator carries the dict and the last parsed
bearer expiry. -/
def parseLine (acc : Dict × Option Nat) (line : List PyStr) :
    PyResult (Dict × Option Nat) :=
  match line with
  | f0 :: f1 :: rest =>
    let k := pyStrip f0
    let v := pyStrip f1
    let d := dictInsert acc.1 k v
    if k = bearerKey then
      match rest with
      | f2 :: _ =>
        match parseTime f2 with
        | some e => PyResult.ok (d, some e)
        | none => PyResult.exn ("ValueError")
      | [] => PyResult.exn ("IndexError")
    else PyResult.ok (d, acc.2)
  | _ => PyResult.exn ("IndexError")

/-- Folds parseLine over the lines of the store file. -/
def parseStoreAux : Dict × Option Nat → List (List PyStr) → PyResult (Dict × Option Nat)
  | acc, [] => PyResult.ok acc
  | acc, line :: rest =>
    match parseLine acc line with
    | PyResult.ok acc2 => parseStoreAux acc2 rest
    | PyResult.exn m => PyResult.exn m

/-- Models the read loop of retrieve_ids over ids.txt: the resulting dict
and bearer expiry (None when no bearer line was seen). -/
def parseStore (file : List (List PyStr)) : PyResult (Dict × Option Nat) :=
  parseStoreAux ([], none) file

/-- Models the write loop of bearer_to_file: one line per dict entry in
order, the bearer entry replaced by the line bearer,token,expiry and every
other entry written back as key,value. -/
def writeStore (d : Dict) (bearer : PyStr) (expiry : Nat) : List (List PyStr) :=
  d.map (fun kv =>
    if kv.1 = bearerKey then [bearerKey, bearer, fmtTime expiry] else [kv.1, kv.2])

/-- Models bearer_to_file: re-reads ids.txt with the expiry check skipped,
rewrites the whole file with the bearer line replaced (expiry = now + one
hour, 3600 seconds), then re-reads the rewritten file and returns the fresh
dict together with the rewritten file. -/
def bearer_to_file (file : List (List PyStr)) (now : Nat) (bearer : PyStr) :
    PyResult (Dict × List (List PyStr)) :=
  match parseStore file with
  | PyResult.exn m => PyResult.exn m
  | PyResult.ok (d, _) =>
    let newFile := writeStore d bearer (now + 3600)
    match parseStore newFile with
    | PyResult.exn m => PyResult.exn m
    | PyResult.ok (d2, _) => PyResult.ok (d2, newFile)

/-- Models create_bearer: performs the OAuth client-credentials POST (the
access_token of its response is the supplied fresh token) and hands it to
bearer_to_file.  The tenant/client arguments only shape the HTTP request. -/
def create_bearer (file : List (List PyStr)) (now : Nat)
    (tenant_id client_id client_secret : PyStr) (access_token : PyStr) :
    PyResult (Dict × List (List PyStr)) :=
  bearer_to_file file now access_token

/-- Models retrieve_ids: parses ids.txt; with skip_check the parsed dict is
returned as is.  Otherwise the bearer expiry is compared with now (a missing
bearer line leaves it None and the comparison raises a TypeError), and an
expired bearer triggers create_bearer, whose dict and rewritten file are
returned.  The result carries the returned dict, the final file content and
the number of token refresh requests performed. -/
def retrieve_ids (file : List (List PyStr)) (now : Nat) (access_token : PyStr)
    (skip_check : Bool) : PyResult (Dict × List (List PyStr) × Nat) :=
  match parseStore file with
  | PyResult.exn m => PyResult.exn m
  | PyResult.ok (d, expiry?) =>
    if skip_check then PyResult.ok (d, file, 0)
    else
      match expiry? with
      | none => PyResult.exn ("TypeError")
      | some e =>
        if e < now then
          match create_bearer file now ((dictGet d ("tenant_id".toList)).getD [])
              ((dictGet d ("client_id".toList)).getD [])
              ((dictGet d ("client_secret".toList)).getD []) access_token with
          | PyResult.exn m => PyResult.exn m
          | PyResult.ok (d2, f2) => PyResult.ok (d2, f2, 1)
        else PyResult.ok (d, file, 0)

/-! ### Helper lemmas about download_report and runCalls -/

/-- Framing facts about one download_report call: the counter always
advances by one, each buffer changes only for its own batch number, and the
merge branch runs exactly when the incremented counter equals 3. -/
theorem download_report_spec (s : ExporterState) (eid bid lang : String)
    (bn : Int) (c : List Nat) :
    (download_report s eid bid lang bn c).1.num_of_export_jobs_done =
        s.num_of_export_jobs_done + 1 ∧
    (download_report s eid bid lang bn c).1.file1 =
        (if bn = 0 then some c else s.file1) ∧
    (download_report s eid bid lang bn c).1.file2 =
        (if bn = 1 then some c else s.file2) ∧
    (download_report s eid bid lang bn c).1.file3 =
        (if bn = 2 then some c else s.file3) ∧
    (download_report s eid bid lang bn c).2.isSome =
        decide (s.num_of_export_jobs_done + 1 = 3) := by
  unfold download_report
  dsimp only
  split_ifs <;> simp_all <;> (split <;> simp_all)

/-- The exporter counter after a sequence of download_report calls is the
starting counter plus the number of calls. -/
theorem runCalls_counter (bid lang : String) :
    ∀ (calls : List (String × Int × List Nat)) (s : ExporterState),
      (runCalls bid lang s calls).1.num_of_export_jobs_done =
        s.num_of_export_jobs_done + calls.length := by
  intro calls
  induction calls with
  | nil => intro s; simp [runCalls]
  | cons c rest ih =>
    intro s
    simp only [runCalls, List.length_cons]
    rw [ih, (download_report_spec s c.1 bid lang c.2.1 c.2.2).1]
    omega

/-- The merge branch runs exactly once along a call sequence that takes the
counter from below 3 to 3 or beyond, and never otherwise. -/
theorem runCalls_events (bid lang : String) :
    ∀ (calls : List (String × Int × List Nat)) (s : ExporterState),
      ((runCalls bid lang s calls).2).length =
        if s.num_of_export_jobs_done < 3 ∧
            3 ≤ s.num_of_export_jobs_done + calls.length then 1 else 0 := by
  intro calls
  induction calls with
  | nil =>
    intro s
    simp only [runCalls, List.length_nil, List.length_cons]
    split_ifs <;> omega
  | cons c rest ih =>
    intro s
    have hspec := (download_report_spec s c.1 bid lang c.2.1 c.2.2).2.2.2.2
    have hnum := (download_report_spec s c.1 bid lang c.2.1 c.2.2).1
    simp only [runCalls, List.length_append, List.length_cons]
    rw [ih]
    rw [hnum]
    cases hev : (download_report s c.1 bid lang c.2.1 c.2.2).2 with
    | none =>
      rw [hev] at hspec
      simp only [Option.isSome_none] at hspec
      have : ¬ (s.num_of_export_jobs_done + 1 = 3) := by
        intro h
        rw [h] at hspec
        simp at hspec
      simp only [hev, Option.toList_none, List.length_nil]
      split_ifs <;> omega
    | some ev =>
      rw [hev] at hspec
      simp only [Option.isSome_some] at hspec
      have h3 : s.num_of_export_jobs_done + 1 = 3 := by
        by_contra h
        simp [h] at hspec
      simp only [hev, Option.toList_some, List.length_singleton]
      split_ifs <;> omega

/-! ### Claim theorems about download_report (C10, C2, C8, C1) -/

/-- C10: every download_report call increments num_of_export_jobs_done by
exactly one regardless of batch_num; the downloaded bytes are stored into
file1, file2 or file3 exactly when batch_num is 0, 1 or 2, any other
batch_num leaving every buffer unchanged while the counter still advances;
and the merge branch fires exactly when the incremented counter reaches 3,
whether or not every buffer has been filled. -/
theorem c10_download_report_frame (s : ExporterState) (eid bid lang : String)
    (bn : Int) (c : List Nat) :
    (download_report s eid bid lang bn c).1.num_of_export_jobs_done =
        s.num_of_export_jobs_done + 1 ∧
    (download_report s eid bid lang bn c).1.file1 =
        (if bn = 0 then some c else s.file1) ∧
    (download_report s eid bid lang bn c).1.file2 =
        (if bn = 1 then some c else s.file2) ∧
    (download_report s eid bid lang bn c).1.file3 =
        (if bn = 2 then some c else s.file3) ∧
    (download_report s eid bid lang bn c).2.isSome =
        decide (s.num_of_export_jobs_done + 1 = 3) :=
  download_report_spec s eid bid lang bn c

/-- C2: starting from a fresh ReportExporter, any sequence of
download_report calls leaves the completion counter equal to the number of
calls, and the merge step has run exactly once when at least three calls
completed and never otherwise — in particular it runs exactly at the call
that takes num_of_export_jobs_done to 3, cannot run twice, and cannot still
be pending after three or more completions. -/
theorem c2_merge_exactly_once (cwd : List String) (bid lang : String)
    (calls : List (String × Int × List Nat)) :
    (runCalls bid lang (initExporter cwd) calls).1.num_of_export_jobs_done =
        calls.length ∧
    ((runCalls bid lang (initExporter cwd) calls).2).length =
        (if 3 ≤ calls.length then 1 else 0) := by
  constructor
  · rw [runCalls_counter]
    simp [initExporter]
  · rw [runCalls_events]
    simp only [initExporter]
    split_ifs <;> omega

/-- C8: whenever a download_report call completes the merge, the produced
file name embeds exactly the business id and the locale in the shape
`{business_id}_{language}_pagetestts.pdf`, and the directory it is written
into is named downloaded_reports. -/
theorem c8_merged_filename (s s2 : ExporterState) (eid bid lang : String) (bn : Int)
    (c : List Nat) (d : List String) (f : String) (content : List Nat)
    (h : download_report s eid bid lang bn c = (s2, some (MergeEvent.merged d f content))) :
    f = bid ++ "_" ++ lang ++ "_pagetestts.pdf" ∧
    d.getLast? = some ("downloaded_reports") := by
  unfold download_report at h
  dsimp only at h
  split_ifs at h
  all_goals try (simp at h)
  all_goals split at h <;> try (simp at h)
  all_goals obtain ⟨-, hd, hf, -⟩ := h
  all_goals subst hd
  all_goals subst hf
  all_goals refine ⟨rfl, ?_⟩
  all_goals simp_all [List.getLast?_concat]

/-- Witness for C8 at a concrete call: batch 2 arrives last and completes
the merge while the working directory is home. -/
theorem c8_merged_filename_witness :
    ("123_fi-FI_pagetestts.pdf" : String) = ("123" ++ "_" ++ "fi-FI" ++ "_pagetestts.pdf") ∧
    ([("home" : String), ("downloaded_reports" : String)]).getLast? =
      some ("downloaded_reports") :=
  c8_merged_filename
    { num_of_export_jobs_done := 2, file1 := some [1], file2 := some [2, 3], file3 := none,
      cwd := [("home" : String)] }
    { num_of_export_jobs_done := 3, file1 := some [1], file2 := some [2, 3], file3 := some [4],
      cwd := [("home" : String), ("downloaded_reports" : String)] }
    ("e") ("123") ("fi-FI") 2 [4]
    [("home" : String), ("downloaded_reports" : String)] ("123_fi-FI_pagetestts.pdf")
    [1, 2, 3, 4] (by decide)

/-- C1: if download_report is called once for each batch index 0, 1 and 2,
in any arrival order, the merged PDF written at the end is the concatenation
of the batch buffers in fixed batch order file1 (batch 0), file2 (batch 1),
file3 (batch 2) — never in arrival order. -/
theorem c1_merge_fixed_batch_order (cwd : List String) (bid lang : String)
    (e0 e1 e2 : String) (b0 b1 b2 : List Nat) (calls : List (String × Int × List Nat))
    (h : calls.Perm [(e0, 0, b0), (e1, 1, b1), (e2, 2, b2)]) :
    ∃ d f, (runCalls bid lang (initExporter cwd) calls).2 =
      [MergeEvent.merged d f (b0 ++ b1 ++ b2)] := by
  have hlen : calls.length = 3 := by simpa using h.length_eq
  obtain ⟨x, y, z, rfl⟩ := List.length_eq_three.mp hlen
  have h0 : (e0, (0 : Int), b0) ∈ [x, y, z] := h.mem_iff.mpr (by simp)
  have h1 : (e1, (1 : Int), b1) ∈ [x, y, z] := h.mem_iff.mpr (by simp)
  have h2 : (e2, (2 : Int), b2) ∈ [x, y, z] := h.mem_iff.mpr (by simp)
  simp only [List.mem_cons, List.not_mem_nil, or_false] at h0 h1 h2
  rcases h0 with h0 | h0 | h0 <;> rcases h1 with h1 | h1 | h1 <;>
      rcases h2 with h2 | h2 | h2
  all_goals try subst h0
  all_goals try subst h1
  all_goals try subst h2
  all_goals first
    | exact ⟨_, _, rfl⟩
    | simp_all

/-- Witness for C1: arrival order 2, 0, 1 still merges in batch order. -/
theorem c1_merge_fixed_batch_order_witness :
    (([(("e2" : String), (2 : Int), [2]), (("e0" : String), (0 : Int), [0]),
        (("e1" : String), (1 : Int), [1])]).Perm
      [(("e0" : String), (0 : Int), [0]), (("e1" : String), (1 : Int), [1]),
        (("e2" : String), (2 : Int), [2])]) ∧
    ∃ d f, (runCalls ("b123") ("fi-FI") (initExporter [("work" : String)])
        [(("e2" : String), (2 : Int), [2]), (("e0" : String), (0 : Int), [0]),
          (("e1" : String), (1 : Int), [1])]).2 =
      [MergeEvent.merged d f ([0] ++ [1] ++ [2])] :=
  ⟨by decide,
    c1_merge_fixed_batch_order [("work" : String)] ("b123") ("fi-FI")
      ("e0") ("e1") ("e2") [0] [1] [2] _ (by decide)⟩

/-! ### Claim theorems about get_export_id (C3, C9) -/

/-- Counterexample to C3 as stated: on an HTTP 400 submit response,
get_export_id does not return None to the caller — raise_for_status raises
an HTTPError out of the function. -/
theorem c3_counterexample :
    get_export_id { status_code := 400, id := ("J1") } 0 = PyResult.exn ("HTTPError") ∧
    get_export_id { status_code := 400, id := ("J1") } 0 ≠ PyResult.ok (none, false) := by
  decide

/-- C3 amended: for every submit response with status other than 202, no
job id is extracted and generate_report (polling) is not invoked; a
non-error status (outside 400..599) makes get_export_id return None, while
a 4xx/5xx status makes it raise an HTTPError instead. -/
theorem c3_non202_no_polling (resp : SubmitResponse) (bn : Int)
    (h : resp.status_code ≠ 202) :
    (isHttpError resp.status_code = false →
      get_export_id resp bn = PyResult.ok (none, false)) ∧
    (isHttpError resp.status_code = true →
      get_export_id resp bn = PyResult.exn ("HTTPError")) := by
  constructor <;> intro hx <;> simp [get_export_id, hx, h]

/-- Witness for C3 amended: an HTTP 204 submit response yields None. -/
theorem c3_non202_no_polling_witness :
    get_export_id { status_code := 204, id := ("J1") } 0 = PyResult.ok (none, false) :=
  (c3_non202_no_polling { status_code := 204, id := ("J1") } 0 (by decide)).1 (by decide)

/-- Counterexample to C9 as stated: with a negative batch number and an
HTTP 400 submit response, get_export_id raises an HTTPError rather than
returning None. -/
theorem c9_counterexample :
    get_export_id { status_code := 400, id := ("J2") } (-1) = PyResult.exn ("HTTPError") ∧
    get_export_id { status_code := 400, id := ("J2") } (-1) ≠ PyResult.ok (none, false) := by
  decide

/-- C9 amended: a call with negative batch_num never yields a job id and
never starts polling — with a non-error response (in particular status 202)
it returns None, while a 4xx/5xx response raises an HTTPError; and a job id
is returned (with polling started) only when the status is 202 and
batch_num is nonnegative. -/
theorem c9_negative_batch (resp : SubmitResponse) (bn : Int) :
    (bn < 0 → isHttpError resp.status_code = false →
      get_export_id resp bn = PyResult.ok (none, false)) ∧
    (∀ jid started, get_export_id resp bn = PyResult.ok (some jid, started) →
      resp.status_code = 202 ∧ 0 ≤ bn ∧ started = true ∧ jid = resp.id) := by
  constructor
  · intro hbn hx
    have hcond : ¬(resp.status_code = 202 ∧ 0 ≤ bn) := by
      rintro ⟨-, hb⟩
      omega
    simp [get_export_id, hx, hcond]
  · intro jid started h
    unfold get_export_id at h
    split_ifs at h with hhe hok
    · obtain ⟨hs, hb⟩ := hok
      simp only [PyResult.ok.injEq, Prod.mk.injEq, Option.some.injEq] at h
      exact ⟨hs, hb, h.2.symm, h.1.symm⟩
    · simp at h

/-- Witness for C9 amended: status 202 with batch number -1 yields None. -/
theorem c9_negative_batch_witness :
    get_export_id { status_code := 202, id := ("J3") } (-1) = PyResult.ok (none, false) :=
  (c9_negative_batch { status_code := 202, id := ("J3") } (-1)).1 (by decide) (by decide)

/-! ### Claim theorems about the polling loop (C6) -/

/-- Counterexample to C6 as stated: a poll response with HTTP status 500
and body status "Failed" does not cause a 5-second sleep and a retry —
raise_for_status raises an HTTPError out of the loop before the body status
is ever compared, so the loop also does not exit through the Succeeded
branch. -/
theorem c6_counterexample :
    generate_report [{ status_code := 500, status := ("Failed") }] = PollExit.httpError 0 ∧
    generate_report [{ status_code := 500, status := ("Failed") }] ≠ PollExit.pending 5 := by
  decide

/-- C6 amended: over any sequence of poll responses free of HTTP transport
errors (status outside 400..599), the loop never raises; the download step
runs only when a response with body status "Succeeded" has been observed —
every other body status value, failure-like ones included, is treated
identically by sleeping 5 seconds and retrying, so that a sequence with no
Succeeded status is fully consumed, sleeping 5 seconds per response, with
the loop still pending and the download step never invoked.  An HTTP
4xx/5xx response instead aborts the loop by raising an HTTPError. -/
theorem c6_poll_until_succeeded (rs : List PollResponse)
    (hok : ∀ r ∈ rs, isHttpError r.status_code = false) :
    (∀ t, generate_report rs ≠ PollExit.httpError t) ∧
    (∀ t, generate_report rs = PollExit.succeededDownload t →
      ∃ r ∈ rs, r.status = "Succeeded") ∧
    ((∀ r ∈ rs, r.status ≠ "Succeeded") →
      generate_report rs = PollExit.pending (5 * rs.length)) := by
  induction rs with
  | nil =>
    refine ⟨?_, ?_, ?_⟩
    · intro t
      simp [generate_report]
    · intro t ht
      simp [generate_report] at ht
    · intro hall
      simp [generate_report]
  | cons r rest ih =>
    have hr : isHttpError r.status_code = false := hok r (by simp)
    have hrest := ih (fun x hx => hok x (by simp [hx]))
    by_cases hs : r.status = "Succeeded"
    · refine ⟨?_, ?_, ?_⟩
      · intro t
        simp [generate_report, hr, hs]
      · intro t ht
        exact ⟨r, by simp, hs⟩
      · intro hall
        exact absurd hs (hall r (by simp))
    · cases hg : generate_report rest with
      | succeededDownload t0 =>
        refine ⟨?_, ?_, ?_⟩
        · intro t
          simp [generate_report, hr, hs, hg]
        · intro t ht
          obtain ⟨x, hx, hxs⟩ := hrest.2.1 t0 hg
          exact ⟨x, by simp [hx], hxs⟩
        · intro hall
          obtain ⟨x, hx, hxs⟩ := hrest.2.1 t0 hg
          exact absurd hxs (hall x (by simp [hx]))
      | httpError t0 =>
        exact absurd hg (hrest.1 t0)
      | pending t0 =>
        refine ⟨?_, ?_, ?_⟩
        · intro t
          simp [generate_report, hr, hs, hg]
        · intro t ht
          simp [generate_report, hr, hs, hg] at ht
        · intro hall
          have hrp := hrest.2.2 (fun x hx => hall x (by simp [hx]))
          rw [hg] at hrp
          simp only [PollExit.pending.injEq] at hrp
          subst hrp
          have hlen : (5 : Nat) * (rest.length + 1) = 5 * rest.length + 5 := by ring
          simp [generate_report, hr, hs, hg, hlen]

/-- Witness for C6 amended: a Running response followed by a Succeeded one
shows the Succeeded status was observed before the download step ran. -/
theorem c6_poll_until_succeeded_witness :
    (∀ t, generate_report [{ status_code := 200, status := ("Running") },
        { status_code := 200, status := ("Succeeded") }] ≠ PollExit.httpError t) ∧
    ∃ r ∈ [({ status_code := 200, status := ("Running") } : PollResponse),
        { status_code := 200, status := ("Succeeded") }], r.status = "Succeeded" :=
  ⟨(c6_poll_until_succeeded
      [{ status_code := 200, status := ("Running") },
        { status_code := 200, status := ("Succeeded") }] (by decide)).1,
    (c6_poll_until_succeeded
      [{ status_code := 200, status := ("Running") },
        { status_code := 200, status := ("Succeeded") }] (by decide)).2.1 5 (by decide)⟩

/-! ### Claim theorems about retrieve_business_ids (C7) -/

/-- Counterexample to C7 as stated: the line with content " 123 " is not
passed through verbatim — str.strip removes its surrounding whitespace
before it becomes the business_id. -/
theorem c7_counterexample :
    retrieve_business_ids [(" 123 ")] =
      [{ business_id := ("123"), language := ("fi-FI") }] ∧
    (" 123 " : String) ≠ ("123" : String) := by
  constructor
  · decide
  · decide

/-- C7 amended: for every input file free of csv quote characters,
retrieve_business_ids returns one record per input line, in file order,
whose business_id is that line's content with surrounding whitespace
stripped (no other validation) and whose language is the fixed locale
fi-FI. -/
theorem c7_one_record_per_line (lines : List String) :
    retrieve_business_ids lines =
      lines.map (fun l => { business_id := pyStripString l, language := "fi-FI" }) := by
  unfold retrieve_business_ids csvRows
  rw [List.map_map]
  apply List.map_congr_left
  intro l hl
  by_cases h : l = "" <;>
    simp [h, Function.comp, String.intercalate, String.intercalate.go]

/-! ### Helper lemmas for the credential store model -/

/-- Every digit produced by natDigitsRevAux is below 10. -/
theorem natDigitsRevAux_lt_ten :
    ∀ (fuel n : Nat), ∀ d ∈ natDigitsRevAux fuel n, d < 10 := by
  intro fuel
  induction fuel with
  | zero =>
    intro n d hd
    simp [natDigitsRevAux] at hd
  | succ f ih =>
    intro n d hd
    match n with
    | 0 => simp [natDigitsRevAux] at hd
    | m + 1 =>
      simp only [natDigitsRevAux, List.mem_cons] at hd
      rcases hd with rfl | hd
      · exact Nat.mod_lt _ (by omega)
      · exact ih _ d hd

/-- natDigitsRevAux with enough fuel computes the digits of its input. -/
theorem valRev_natDigitsRevAux :
    ∀ (fuel n : Nat), n ≤ fuel → valRev (natDigitsRevAux fuel n) = n := by
  intro fuel
  induction fuel with
  | zero =>
    intro n hn
    interval_cases n
    simp [natDigitsRevAux, valRev]
  | succ f ih =>
    intro n hn
    match n with
    | 0 => simp [natDigitsRevAux, valRev]
    | m + 1 =>
      have hdiv : (m + 1) / 10 ≤ f := by
        have hlt : (m + 1) / 10 < m + 1 := Nat.div_lt_self (Nat.succ_pos m) (by omega)
        omega
      simp only [natDigitsRevAux, valRev, ih _ hdiv]
      omega

/-- Decoding inverts the digit-character table below 10. -/
theorem charToDigit_digitToChar : ∀ d < 10, charToDigit (digitToChar d) = d := by
  decide

/-- Digit characters pass the Char.isDigit test. -/
theorem isDigit_digitToChar : ∀ d < 10, (digitToChar d).isDigit = true := by
  decide

/-- Folding the parser step over encoded digits equals folding over the
digits themselves. -/
theorem foldl_map_digitToChar :
    ∀ (ds : List Nat), (∀ d ∈ ds, d < 10) → ∀ (a : Nat),
      List.foldl (fun x c => x * 10 + charToDigit c) a (ds.map digitToChar) =
        List.foldl (fun x d => x * 10 + d) a ds := by
  intro ds
  induction ds with
  | nil => intro h a; rfl
  | cons d t ih =>
    intro h a
    simp only [List.map_cons, List.foldl_cons]
    rw [charToDigit_digitToChar d (h d (by simp))]
    exact ih (fun x hx => h x (by simp [hx])) _

/-- Folding the base-10 accumulator over a reversed digit list computes its
little-endian value. -/
theorem foldl_reverse_valRev :
    ∀ (ds : List Nat) (a : Nat),
      List.foldl (fun x d => x * 10 + d) a ds.reverse =
        a * 10 ^ ds.length + valRev ds := by
  intro ds
  induction ds with
  | nil => intro a; simp [valRev]
  | cons d t ih =>
    intro a
    simp only [List.reverse_cons, List.foldl_append, List.foldl_cons, List.foldl_nil, ih,
      List.length_cons, valRev]
    ring

/-- The modelled strptime inverts the modelled str on timestamps. -/
theorem parseTime_fmtTime (t : Nat) : parseTime (fmtTime t) = some t := by
  match t with
  | 0 => decide
  | m + 1 =>
    have hne : natDigitsRev (m + 1) = (m + 1) % 10 :: natDigitsRevAux m ((m + 1) / 10) := by
      simp [natDigitsRev, natDigitsRevAux]
    have hlt : ∀ d ∈ natDigitsRev (m + 1), d < 10 := natDigitsRevAux_lt_ten (m + 1) (m + 1)
    have hrevlt : ∀ d ∈ (natDigitsRev (m + 1)).reverse, d < 10 := by
      intro d hd
      exact hlt d (List.mem_reverse.mp hd)
    have hfmt : fmtTime (m + 1) = ((natDigitsRev (m + 1)).reverse).map digitToChar := by
      simp [fmtTime]
    have hnonempty : ((natDigitsRev (m + 1)).reverse).map digitToChar ≠ [] := by
      simp [hne]
    have hall : (((natDigitsRev (m + 1)).reverse).map digitToChar).all Char.isDigit = true := by
      rw [List.all_eq_true]
      intro c hc
      rw [List.mem_map] at hc
      obtain ⟨d, hd, rfl⟩ := hc
      exact isDigit_digitToChar d (hrevlt d hd)
    rw [hfmt]
    unfold parseTime
    rw [if_neg (by simpa [List.isEmpty_iff] using hnonempty), if_pos hall]
    rw [foldl_map_digitToChar _ hrevlt 0]
    rw [foldl_reverse_valRev]
    have hval : valRev (natDigitsRev (m + 1)) = m + 1 :=
      valRev_natDigitsRevAux (m + 1) (m + 1) (Nat.le_refl _)
    rw [hval]
    simp

/-- Stripping strips the leading whitespace of an already left-stripped
list no further. -/
theorem dropWhile_rdropWhile_of_dropWhile_eq (p : Char → Bool) (y : PyStr)
    (hy : List.dropWhile p y = y) :
    List.dropWhile p (List.rdropWhile p y) = List.rdropWhile p y := by
  cases hr : List.rdropWhile p y with
  | nil => rfl
  | cons c t =>
    rw [List.dropWhile_eq_self_iff]
    intro hl
    have hpre : List.rdropWhile p y <+: y := List.rdropWhile_prefix p y
    rw [hr] at hpre
    obtain ⟨rest, hrest⟩ := hpre
    have hyc : y = c :: (t ++ rest) := by rw [← hrest]; simp
    have h0 : ¬p (y.get ⟨0, by rw [hyc]; simp⟩) := by
      rw [List.dropWhile_eq_self_iff] at hy
      exact hy _
    have : y.get ⟨0, by rw [hyc]; simp⟩ = c := by
      simp [hyc]
    rw [this] at h0
    simpa using h0

/-- Modelled str.strip is idempotent. -/
theorem pyStrip_idem (s : PyStr) : pyStrip (pyStrip s) = pyStrip s := by
  unfold pyStrip
  rw [dropWhile_rdropWhile_of_dropWhile_eq _ _ (List.dropWhile_idempotent _ _)]
  rw [List.rdropWhile_idempotent]

/-- The literal bearer key is fixed by stripping. -/
theorem pyStrip_bearerKey : pyStrip bearerKey = bearerKey := by
  decide

/-- Replacing the value stored under a key leaves the key set unchanged. -/
theorem dictHasKey_map (d : Dict) (k v k2 : PyStr) :
    dictHasKey (d.map (fun kv => if kv.1 = k then (k, v) else kv)) k2 =
      dictHasKey d k2 := by
  induction d with
  | nil => rfl
  | cons kv t ih =>
    by_cases hkv : kv.1 = k <;>
      simp [dictHasKey, hkv, List.any_cons] at ih ⊢ <;>
      rw [← ih] <;> rfl

/-- Key membership after a dict assignment. -/
theorem dictHasKey_dictInsert (d : Dict) (k v k2 : PyStr) :
    dictHasKey (dictInsert d k v) k2 = (dictHasKey d k2 || (k == k2)) := by
  unfold dictInsert
  split_ifs with hhas
  · rw [dictHasKey_map]
    by_cases hk2 : k = k2
    · subst hk2
      simp [hhas]
    · simp [hk2]
  · simp only [dictHasKey, List.any_append, List.any_cons, List.any_nil]
    simp

/-- A dict assignment with a stripped key and value preserves dict
well-formedness. -/
theorem storeDictOK_dictInsert (d : Dict) (k v : PyStr)
    (hd : storeDictOK d) (hk : pyStrip k = k) (hv : pyStrip v = v) :
    storeDictOK (dictInsert d k v) := by
  obtain ⟨hpw, hstr⟩ := hd
  have hkey : ∀ a : PyStr × PyStr, (if a.1 = k then (k, v) else a).1 = a.1 := by
    intro a
    split_ifs with h
    · exact h.symm
    · rfl
  unfold dictInsert
  split_ifs with hhas
  · constructor
    · rw [List.pairwise_map]
      exact hpw.imp (fun hab => by simpa [hkey] using hab)
    · intro kv hkv
      rw [List.mem_map] at hkv
      obtain ⟨a, ha, rfl⟩ := hkv
      split_ifs with h
      · exact ⟨hk, hv⟩
      · exact hstr a ha
  · have hne : ∀ kv ∈ d, kv.1 ≠ k := by
      intro kv hkv hcontra
      have : dictHasKey d k = true := by
        simp only [dictHasKey, List.any_eq_true]
        exact ⟨kv, hkv, by simp [hcontra]⟩
      simp [this] at hhas
    constructor
    · rw [List.pairwise_append]
      refine ⟨hpw, by simp, ?_⟩
      intro a ha b hb
      simp only [List.mem_singleton] at hb
      subst hb
      exact hne a ha
    · intro kv hkv
      rw [List.mem_append] at hkv
      rcases hkv with hkv | hkv
      · exact hstr kv hkv
      · simp only [List.mem_singleton] at hkv
        subst hkv
        exact ⟨hk, hv⟩

/-- Looking up the bearer key after the bearer value was substituted. -/
theorem dictGet_map_bearer (d : Dict) (w : PyStr)
    (hhas : dictHasKey d bearerKey = true) :
    dictGet (d.map (fun kv => if kv.1 = bearerKey then (bearerKey, w) else kv))
      bearerKey = some w := by
  induction d with
  | nil => simp [dictHasKey] at hhas
  | cons kv t ih =>
    by_cases hkv : kv.1 = bearerKey
    · simp [dictGet, List.find?, hkv]
    · have hhas2 : dictHasKey t bearerKey = true := by
        simp only [dictHasKey, List.any_cons, Bool.or_eq_true] at hhas
        rcases hhas with h1 | h2
        · exact absurd (by simpa using h1) hkv
        · simpa [dictHasKey] using h2
      have := ih hhas2
      simp only [dictGet] at this ⊢
      simp only [List.map_cons, List.find?, if_neg hkv]
      rw [show (kv.1 == bearerKey) = false by simp [hkv]]
      exact this

/-- Computation of parseLine on a rewritten non-bearer line. -/
theorem parseLine_plain (acc : Dict) (e? : Option Nat) (k v : PyStr)
    (hk : pyStrip k = k) (hv : pyStrip v = v) (hkb : k ≠ bearerKey)
    (hhas : dictHasKey acc k = false) :
    parseLine (acc, e?) [k, v] = PyResult.ok (acc ++ [(k, v)], e?) := by
  unfold parseLine
  dsimp only
  rw [hk, hv, if_neg hkb]
  unfold dictInsert
  rw [hhas]
  simp

/-- Computation of parseLine on the rewritten bearer line. -/
theorem parseLine_bearer (acc : Dict) (e? : Option Nat) (tok : PyStr) (exp : Nat)
    (hhas : dictHasKey acc bearerKey = false) :
    parseLine (acc, e?) [bearerKey, tok, fmtTime exp] =
      PyResult.ok (acc ++ [(bearerKey, pyStrip tok)], some exp) := by
  unfold parseLine
  dsimp only
  rw [pyStrip_bearerKey, if_pos rfl, parseTime_fmtTime]
  unfold dictInsert
  rw [hhas]
  simp

/-- Every successful parseLine step keeps the dict well formed, and keeps
the bearer key present whenever an expiry has been recorded. -/
theorem parseLine_invariant (acc : Dict) (e? : Option Nat) (line : List PyStr)
    (d2 : Dict) (e2 : Option Nat)
    (h : parseLine (acc, e?) line = PyResult.ok (d2, e2))
    (hacc : storeDictOK acc)
    (hbear : e?.isSome = true → dictHasKey acc bearerKey = true) :
    storeDictOK d2 ∧ (e2.isSome = true → dictHasKey d2 bearerKey = true) := by
  match line with
  | [] => simp [parseLine] at h
  | [f0] => simp [parseLine] at h
  | f0 :: f1 :: rest =>
    unfold parseLine at h
    dsimp only at h
    have hok : storeDictOK (dictInsert acc (pyStrip f0) (pyStrip f1)) :=
      storeDictOK_dictInsert acc (pyStrip f0) (pyStrip f1) hacc
        (pyStrip_idem f0) (pyStrip_idem f1)
    split_ifs at h with hb
    · match rest, h with
      | f2 :: rest2, h =>
        dsimp only at h
        cases hpt : parseTime f2 with
        | some e =>
          rw [hpt] at h
          simp only [PyResult.ok.injEq, Prod.mk.injEq] at h
          obtain ⟨rfl, rfl⟩ := h
          refine ⟨hok, fun _ => ?_⟩
          rw [hb] at hok ⊢
          rw [dictHasKey_dictInsert]
          simp
        | none =>
          rw [hpt] at h
          simp at h
    · simp only [PyResult.ok.injEq, Prod.mk.injEq] at h
      obtain ⟨rfl, rfl⟩ := h
      refine ⟨hok, fun he => ?_⟩
      rw [dictHasKey_dictInsert]
      simp [hbear he]

/-- Every successful run of the read loop yields a well-formed dict, with
the bearer key present whenever an expiry was recorded. -/
theorem parseStoreAux_invariant :
    ∀ (file : List (List PyStr)) (acc : Dict) (e? : Option Nat)
      (res : Dict × Option Nat),
      parseStoreAux (acc, e?) file = PyResult.ok res →
      storeDictOK acc →
      (e?.isSome = true → dictHasKey acc bearerKey = true) →
      storeDictOK res.1 ∧ (res.2.isSome = true → dictHasKey res.1 bearerKey = true) := by
  intro file
  induction file with
  | nil =>
    intro acc e? res h hacc hb
    simp only [parseStoreAux, PyResult.ok.injEq] at h
    subst h
    exact ⟨hacc, hb⟩
  | cons line rest ih =>
    intro acc e? res h hacc hb
    simp only [parseStoreAux] at h
    cases hpl : parseLine (acc, e?) line with
    | ok acc2 =>
      rw [hpl] at h
      obtain ⟨h1, h2⟩ := parseLine_invariant acc e? line acc2.1 acc2.2 hpl hacc hb
      exact ih acc2.1 acc2.2 res h h1 h2
    | exn m =>
      rw [hpl] at h
      simp at h

/-- Facts about the dict parsed from a well-formed store file: it is well
formed, and it contains the bearer key whenever an expiry was parsed. -/
theorem parseStore_invariant (file : List (List PyStr)) (d : Dict) (e? : Option Nat)
    (h : parseStore file = PyResult.ok (d, e?)) :
    storeDictOK d ∧ (e?.isSome = true → dictHasKey d bearerKey = true) :=
  parseStoreAux_invariant file [] none (d, e?) h ⟨List.Pairwise.nil, by simp⟩ (by simp)

/-- Reading back a rewritten store: parsing the rewritten lines of a
well-formed dict appends each pair unchanged except the bearer pair, whose
value becomes the stripped fresh token; the expiry read back is the written
one exactly when a bearer line was written. -/
theorem parseStoreAux_writeStore (tok : PyStr) (exp : Nat) :
    ∀ (d : Dict) (acc : Dict) (e? : Option Nat),
      storeDictOK d →
      (∀ kv ∈ d, dictHasKey acc kv.1 = false) →
      parseStoreAux (acc, e?) (writeStore d tok exp) =
        PyResult.ok
          (acc ++ d.map (fun kv => if kv.1 = bearerKey then (bearerKey, pyStrip tok) else kv),
            if dictHasKey d bearerKey then some exp else e?) := by
  intro d
  induction d with
  | nil =>
    intro acc e? hok hdisj
    simp [writeStore, parseStoreAux, dictHasKey]
  | cons kv t ih =>
    intro acc e? hok hdisj
    obtain ⟨hpw, hstr⟩ := hok
    have hpwt : storeDictOK t :=
      ⟨List.Pairwise.of_cons hpw, fun x hx => hstr x (by simp [hx])⟩
    have hkvne : ∀ x ∈ t, kv.1 ≠ x.1 := (List.pairwise_cons.mp hpw).1
    by_cases hb : kv.1 = bearerKey
    · have hline : writeStore (kv :: t) tok exp =
          [bearerKey, tok, fmtTime exp] :: writeStore t tok exp := by
        simp [writeStore, hb]
      rw [hline]
      simp only [parseStoreAux]
      rw [parseLine_bearer acc e? tok exp (by rw [← hb]; exact hdisj kv (by simp))]
      dsimp only
      rw [ih (acc ++ [(bearerKey, pyStrip tok)]) (some exp) hpwt (by
        intro x hx
        have h1 : dictHasKey acc x.1 = false := hdisj x (by simp [hx])
        have h2 : bearerKey ≠ x.1 := by
          rw [← hb]
          exact hkvne x hx
        simp only [dictHasKey, List.any_append, List.any_cons, List.any_nil] at h1 ⊢
        simp [h1, h2])]
      simp [hb, dictHasKey, List.any_cons, List.append_assoc]
    · have hline : writeStore (kv :: t) tok exp =
          [kv.1, kv.2] :: writeStore t tok exp := by
        simp [writeStore, hb]
      rw [hline]
      simp only [parseStoreAux]
      have hstrkv := hstr kv (by simp)
      rw [parseLine_plain acc e? kv.1 kv.2 hstrkv.1 hstrkv.2 hb (hdisj kv (by simp))]
      dsimp only
      rw [ih (acc ++ [(kv.1, kv.2)]) e? hpwt (by
        intro x hx
        have h1 : dictHasKey acc x.1 = false := hdisj x (by simp [hx])
        have h2 : kv.1 ≠ x.1 := hkvne x hx
        simp only [dictHasKey, List.any_append, List.any_cons, List.any_nil] at h1 ⊢
        simp [h1, h2])]
      simp [hb, dictHasKey, List.any_cons, List.append_assoc]
      rw [show (kv.1 == bearerKey) = false from beq_eq_false_iff_ne.mpr hb]
      rfl

/-- Parsing the full rewritten store from scratch. -/
theorem parseStore_writeStore (d : Dict) (tok : PyStr) (exp : Nat)
    (hok : storeDictOK d) :
    parseStore (writeStore d tok exp) =
      PyResult.ok
        (d.map (fun kv => if kv.1 = bearerKey then (bearerKey, pyStrip tok) else kv),
          if dictHasKey d bearerKey then some exp else none) := by
  unfold parseStore
  rw [parseStoreAux_writeStore tok exp d [] none hok (fun kv hkv => rfl)]
  simp

/-- Full behavior of bearer_to_file on a parseable store: the file is
rewritten with only the bearer line replaced (fresh token, expiry one hour
from now), and the returned dict is the reparse of that rewrite, which maps
bearer to the stripped fresh token and keeps every other pair. -/
theorem bearer_to_file_spec (file : List (List PyStr)) (now : Nat) (tok : PyStr)
    (d0 : Dict) (e? : Option Nat)
    (hp : parseStore file = PyResult.ok (d0, e?)) :
    bearer_to_file file now tok =
      PyResult.ok
        (d0.map (fun kv => if kv.1 = bearerKey then (bearerKey, pyStrip tok) else kv),
          writeStore d0 tok (now + 3600)) := by
  have hok := (parseStore_invariant file d0 e? hp).1
  unfold bearer_to_file
  rw [hp]
  dsimp only
  rw [parseStore_writeStore d0 tok (now + 3600) hok]

/-! ### Claim theorems about the credential store (C4, C5) -/

/-- Counterexample to C4 as stated: refreshing with a freshly issued token
that carries surrounding whitespace returns a mapping whose bearer value is
the stripped token, not the token itself — the rewritten line is re-read
through str.strip. -/
theorem c4_counterexample :
    retrieve_ids [[("bearer".toList), ("old".toList), (['0'])]] 1 (" new".toList) false =
      PyResult.ok ([(("bearer".toList : PyStr), ("new".toList : PyStr))],
        [[("bearer".toList : PyStr), (" new".toList), (['3', '6', '0', '1'])]], 1) ∧
    (" new".toList : PyStr) ≠ ("new".toList) := by
  constructor
  · decide
  · decide

/-- C4 amended: on a credential store whose bearer expiry lies in the past,
retrieve_ids with the check enabled performs exactly one token refresh (no
recursion) and returns the mapping re-read from the rewritten store, whose
bearer value is the newly issued token with surrounding whitespace stripped
(the token itself whenever it carries none); with a future expiry it
performs no refresh and returns the mapping parsed from the file
unchanged. -/
theorem c4_refresh_once (file : List (List PyStr)) (now : Nat) (tok : PyStr)
    (d0 : Dict) (e : Nat)
    (hp : parseStore file = PyResult.ok (d0, some e)) :
    (e < now →
      retrieve_ids file now tok false =
        PyResult.ok
          (d0.map (fun kv => if kv.1 = bearerKey then (bearerKey, pyStrip tok) else kv),
            writeStore d0 tok (now + 3600), 1) ∧
      dictGet (d0.map (fun kv => if kv.1 = bearerKey then (bearerKey, pyStrip tok) else kv))
        bearerKey = some (pyStrip tok)) ∧
    (now ≤ e → retrieve_ids file now tok false = PyResult.ok (d0, file, 0)) := by
  obtain ⟨hok, hbk⟩ := parseStore_invariant file d0 (some e) hp
  have hhas : dictHasKey d0 bearerKey = true := hbk rfl
  constructor
  · intro hlt
    constructor
    · unfold retrieve_ids create_bearer
      rw [hp, bearer_to_file_spec file now tok d0 (some e) hp]
      simp [hlt]
    · exact dictGet_map_bearer d0 (pyStrip tok) hhas
  · intro hge
    have hnlt : ¬ e < now := by omega
    unfold retrieve_ids
    rw [hp]
    simp [hnlt]

/-- Witness for C4 amended at a concrete expired store. -/
theorem c4_refresh_once_witness :
    retrieve_ids [[("bearer".toList), ("old".toList), (['0'])]] 1 (" new".toList) false =
      PyResult.ok
        ([(("bearer".toList : PyStr), ("old".toList : PyStr))].map
            (fun kv => if kv.1 = bearerKey then (bearerKey, pyStrip (" new".toList)) else kv),
          writeStore [(("bearer".toList : PyStr), ("old".toList : PyStr))]
            (" new".toList) (1 + 3600), 1) ∧
    dictGet ([(("bearer".toList : PyStr), ("old".toList : PyStr))].map
        (fun kv => if kv.1 = bearerKey then (bearerKey, pyStrip (" new".toList)) else kv))
      bearerKey = some (pyStrip (" new".toList)) :=
  (c4_refresh_once [[("bearer".toList), ("old".toList), (['0'])]] 1 (" new".toList)
    [(("bearer".toList : PyStr), ("old".toList : PyStr))] 0 (by decide)).1 (by decide)

/-- Counterexample to C5 as stated: re-loading the rewritten store maps the
bearer key to the stripped fresh token, which differs from the newly issued
token when that token carries surrounding whitespace. -/
theorem c5_counterexample :
    bearer_to_file [[("bearer".toList), ("old".toList), (['0'])]] 7 (" t".toList) =
      PyResult.ok ([(("bearer".toList : PyStr), ("t".toList : PyStr))],
        [[("bearer".toList : PyStr), (" t".toList), (['3', '6', '0', '7'])]]) ∧
    ("t".toList : PyStr) ≠ (" t".toList) := by
  constructor
  · decide
  · decide

/-- C5 amended: for every parseable credential store, a refresh rewrites
the whole file preserving every non-bearer key/value pair verbatim and
replacing only the bearer line (fresh token, expiry = now + one hour), and
re-loading the rewritten store with the expiry check skipped yields the
same key/value mapping as before except that the bearer key maps to the
newly issued token with surrounding whitespace stripped. -/
theorem c5_rewrite_roundtrip (file : List (List PyStr)) (now : Nat) (tok : PyStr)
    (d0 : Dict) (e? : Option Nat)
    (hp : parseStore file = PyResult.ok (d0, e?)) :
    bearer_to_file file now tok =
      PyResult.ok
        (d0.map (fun kv => if kv.1 = bearerKey then (bearerKey, pyStrip tok) else kv),
          d0.map (fun kv =>
            if kv.1 = bearerKey then [bearerKey, tok, fmtTime (now + 3600)]
            else [kv.1, kv.2])) :=
  bearer_to_file_spec file now tok d0 e? hp

/-- Witness for C5 amended at a concrete store. -/
theorem c5_rewrite_roundtrip_witness :
    bearer_to_file [[("bearer".toList), ("old".toList), (['0'])]] 7 (" t".toList) =
      PyResult.ok
        ([(("bearer".toList : PyStr), ("old".toList : PyStr))].map
            (fun kv => if kv.1 = bearerKey then (bearerKey, pyStrip (" t".toList)) else kv),
          [(("bearer".toList : PyStr), ("old".toList : PyStr))].map
            (fun kv =>
              if kv.1 = bearerKey then [bearerKey, (" t".toList), fmtTime (7 + 3600)]
              else [kv.1, kv.2])) :=
  c5_rewrite_roundtrip [[("bearer".toList), ("old".toList), (['0'])]] 7 (" t".toList)
    [(("bearer".toList : PyStr), ("old".toList : PyStr))] (some 0) (by decide)
